import Mathlib

/-!
# Verification of the cjapy report-decoding and breakdown-traversal engine

Shallow embedding of `src/cjapy/cjapy.py` (class `CJA`): the response
decoding helpers `_prepareData` and `_decrypteStaticData`, the shape
classification, settings mutation and pagination loop of `getReport`, the
column-name resolution for normal reports, and the bookkeeping of
`getMultidimensionalReport`.  The request-builder class `RequestCreator`
lives in a module that is not part of the sources at hand; its operations
are modelled from the specification (§4.1) and are marked as such.
-/

set_option autoImplicit false

namespace Cjapy

/-! ## Python dict model

A Python `dict` is an insertion-ordered association list with unique keys:
assigning to an existing key overwrites its value in place, assigning to a
fresh key appends it at the end.  All dict keys appearing in the embedded
code are strings. -/

/-- Association list standing for a Python `dict` with `String` keys. -/
abbrev Dict (α : Type) := List (String × α)

/-- `d[k] = v` on a Python dict: overwrite the (unique) binding in place
if the key exists, append at the end otherwise. -/
def dictInsert {α : Type} : Dict α → String → α → Dict α
  | [], k, v => [(k, v)]
  | p :: d, k, v => if p.1 = k then (k, v) :: d else p :: dictInsert d k v

/-- `d[k]` on a Python dict, as an `Option` (`none` models a `KeyError`). -/
def dictGet {α : Type} : Dict α → String → Option α
  | [], _ => none
  | p :: d, k => if p.1 = k then some p.2 else dictGet d k

/-- `d.get(k, v₀)` on a Python dict (also a `defaultdict` read). -/
def dictGetD {α : Type} (d : Dict α) (k : String) (v₀ : α) : α :=
  (dictGet d k).getD v₀

/-- `list(d.keys())` on a Python dict. -/
def dictKeys {α : Type} (d : Dict α) : List String :=
  d.map (fun p => p.1)

/-- Build a dict from a list of key/value pairs, later bindings
overwriting earlier ones (the semantics of a Python dict comprehension). -/
def dictOf {α : Type} (l : List (String × α)) : Dict α :=
  l.foldl (fun d p => dictInsert d p.1 p.2) []

section DictLemmas

variable {α : Type}

@[simp] theorem dictGet_nil (k : String) : dictGet ([] : Dict α) k = none := rfl

theorem dictInsert_of_not_mem {d : Dict α} {k : String} (v : α)
    (h : k ∉ dictKeys d) : dictInsert d k v = d ++ [(k, v)] := by
  induction d with
  | nil => rfl
  | cons p d ih =>
      simp only [dictKeys, List.map_cons, List.mem_cons] at h
      push_neg at h
      simp only [dictInsert, if_neg (Ne.symm h.1), List.cons_append]
      rw [ih (by simpa [dictKeys] using h.2)]

@[simp] theorem dictGet_dictInsert_self (d : Dict α) (k : String) (v : α) :
    dictGet (dictInsert d k v) k = some v := by
  induction d with
  | nil => simp [dictInsert, dictGet]
  | cons p d ih =>
      by_cases hp : p.1 = k
      · simp [dictInsert, dictGet, hp]
      · simp [dictInsert, dictGet, hp, ih]

theorem dictGet_dictInsert_ne (d : Dict α) {k k' : String} (v : α)
    (h : k' ≠ k) : dictGet (dictInsert d k v) k' = dictGet d k' := by
  induction d with
  | nil => simp [dictInsert, dictGet, Ne.symm h]
  | cons p d ih =>
      by_cases hp : p.1 = k
      · simp only [dictInsert, if_pos hp, dictGet]
        rw [if_neg (by simpa using Ne.symm h), if_neg (by rw [hp]; exact Ne.symm h)]
      · by_cases hp' : p.1 = k'
        · simp [dictInsert, dictGet, hp, hp', h]
        · simp [dictInsert, dictGet, hp, hp', ih]

theorem dictKeys_dictInsert_of_mem' (v : α) (k : String) :
    ∀ d : Dict α, k ∈ dictKeys d → dictKeys (dictInsert d k v) = dictKeys d := by
  intro d
  induction d with
  | nil => intro h; simp [dictKeys] at h
  | cons p d ih =>
      intro h
      by_cases hp : p.1 = k
      · simp [dictInsert, dictKeys, hp]
      · have hd : k ∈ dictKeys d := by
          simp only [dictKeys, List.map_cons, List.mem_cons] at h
          rcases h with h | h
          · exact absurd h.symm hp
          · simpa [dictKeys] using h
        simp only [dictInsert, if_neg hp, dictKeys, List.map_cons]
        have := ih hd
        simp only [dictKeys] at this
        rw [this]

theorem dictKeys_dictInsert_of_mem {d : Dict α} {k : String} (v : α)
    (h : k ∈ dictKeys d) : dictKeys (dictInsert d k v) = dictKeys d :=
  dictKeys_dictInsert_of_mem' v k d h

theorem dictKeys_dictInsert_of_not_mem {d : Dict α} {k : String} (v : α)
    (h : k ∉ dictKeys d) : dictKeys (dictInsert d k v) = dictKeys d ++ [k] := by
  rw [dictInsert_of_not_mem v h]
  simp [dictKeys]

theorem mem_dictKeys_dictInsert (d : Dict α) (k k' : String) (v : α) :
    k' ∈ dictKeys (dictInsert d k v) ↔ k' = k ∨ k' ∈ dictKeys d := by
  by_cases h : k ∈ dictKeys d
  · rw [dictKeys_dictInsert_of_mem v h]
    constructor
    · exact Or.inr
    · rintro (rfl | hm) <;> [exact h; exact hm]
  · rw [dictKeys_dictInsert_of_not_mem v h]
    simp [or_comm]

theorem nodup_dictKeys_dictInsert {d : Dict α} (k : String) (v : α)
    (h : (dictKeys d).Nodup) : (dictKeys (dictInsert d k v)).Nodup := by
  by_cases hm : k ∈ dictKeys d
  · rwa [dictKeys_dictInsert_of_mem v hm]
  · rw [dictKeys_dictInsert_of_not_mem v hm]
    simpa [List.nodup_append] using ⟨h, hm⟩

end DictLemmas

/-! ## `_prepareData` (cjapy.py lines 1180-1201)

The normal-report branch iterates over the rows and, for each row, assigns
`expanded_rows[row["itemId"]] = [row["value"]]` and then appends
`row["data"]` to that entry. -/

/-- A cell of a decoded row: the row label string or a metric number. -/
inductive Cell : Type
  | s (v : String)
  | n (v : Int)
deriving DecidableEq, Repr

/-- One element of the `rows` list of a normal report response:
`{itemId, value, data: [metric values...]}`. -/
structure NormalRow : Type where
  itemId : String
  value : String
  data : List Int
deriving DecidableEq, Repr

/-- One iteration of the `for row in data_rows` loop of `_prepareData`
(`reportType == "normal"` branch): `expanded_rows[row["itemId"]] =
[row["value"]]` followed by `expanded_rows[row["itemId"]] += row["data"]`. -/
def prepareStep (expanded_rows : Dict (List Cell)) (row : NormalRow) :
    Dict (List Cell) :=
  let d := dictInsert expanded_rows row.itemId [Cell.s row.value]
  dictInsert d row.itemId
    (dictGetD d row.itemId [] ++ row.data.map Cell.n)

/-- `CJA._prepareData(dataRows, reportType="normal")`: fold the per-row
assignment over the rows, starting from the empty dict.  (The
`reportType == "static"` branch returns its input unchanged and is not
modelled separately.) -/
def prepareData (dataRows : List NormalRow) : Dict (List Cell) :=
  dataRows.foldl prepareStep []

theorem dictInsert_dictInsert_same {α : Type} (d : Dict α) (k : String) (v w : α) :
    dictInsert (dictInsert d k v) k w = dictInsert d k w := by
  induction d with
  | nil => simp [dictInsert]
  | cons p d ih =>
      by_cases hp : p.1 = k
      · simp [dictInsert, hp]
      · simp [dictInsert, hp, ih]

theorem prepareStep_eq (d : Dict (List Cell)) (row : NormalRow) :
    prepareStep d row =
      dictInsert d row.itemId (Cell.s row.value :: row.data.map Cell.n) := by
  show dictInsert (dictInsert d row.itemId [Cell.s row.value]) row.itemId
      (dictGetD (dictInsert d row.itemId [Cell.s row.value]) row.itemId []
        ++ row.data.map Cell.n) =
    dictInsert d row.itemId (Cell.s row.value :: row.data.map Cell.n)
  rw [show dictGetD (dictInsert d row.itemId [Cell.s row.value]) row.itemId [] =
        [Cell.s row.value] by simp [dictGetD]]
  rw [dictInsert_dictInsert_same]
  rfl

/-- The dict entry `_prepareData` produces for one row. -/
def entryOf (r : NormalRow) : String × List Cell :=
  (r.itemId, Cell.s r.value :: r.data.map Cell.n)

theorem prepareData_eq_foldl (rows : List NormalRow) (acc : Dict (List Cell)) :
    rows.foldl prepareStep acc =
      (rows.map entryOf).foldl (fun d p => dictInsert d p.1 p.2) acc := by
  induction rows generalizing acc with
  | nil => rfl
  | cons r rows ih =>
      simp only [List.foldl_cons, List.map_cons, prepareStep_eq]
      exact ih _

section FoldlInsertLemmas

variable {α : Type}

theorem find?_append_cases (l₁ l₂ : List (String × α)) (p : String × α → Bool) :
    (l₁ ++ l₂).find? p =
      match l₁.find? p with
      | some q => some q
      | none => l₂.find? p := by
  induction l₁ with
  | nil => rfl
  | cons q l₁ ih =>
      by_cases hq : p q
      · simp [List.find?, hq]
      · simp only [List.cons_append, List.find?, hq]
        exact ih

theorem dictGet_foldl_insert (l : List (String × α)) (acc : Dict α) (k : String) :
    dictGet (l.foldl (fun d p => dictInsert d p.1 p.2) acc) k =
      match l.reverse.find? (fun p => p.1 = k) with
      | some q => some q.2
      | none => dictGet acc k := by
  induction l generalizing acc with
  | nil => rfl
  | cons p l ih =>
      simp only [List.foldl_cons, List.reverse_cons]
      rw [ih, find?_append_cases]
      cases hf : l.reverse.find? (fun q => q.1 = k) with
      | some q => rfl
      | none =>
          simp only [List.find?]
          by_cases hp : p.1 = k
          · subst hp
            simp [dictGet_dictInsert_self]
          · rw [dictGet_dictInsert_ne _ _ (fun hh => hp hh.symm)]
            simp [hp]

theorem mem_dictKeys_foldl_insert (l : List (String × α)) (acc : Dict α) (k : String) :
    k ∈ dictKeys (l.foldl (fun d p => dictInsert d p.1 p.2) acc) ↔
      k ∈ dictKeys acc ∨ k ∈ l.map (fun p => p.1) := by
  induction l generalizing acc with
  | nil => simp
  | cons p l ih =>
      simp only [List.foldl_cons, List.map_cons, List.mem_cons]
      rw [ih, mem_dictKeys_dictInsert]
      tauto

theorem nodup_dictKeys_foldl_insert (l : List (String × α)) (acc : Dict α)
    (h : (dictKeys acc).Nodup) :
    (dictKeys (l.foldl (fun d p => dictInsert d p.1 p.2) acc)).Nodup := by
  induction l generalizing acc with
  | nil => exact h
  | cons p l ih =>
      simp only [List.foldl_cons]
      exact ih _ (nodup_dictKeys_dictInsert _ _ h)

theorem foldl_insert_of_nodup (l : List (String × α)) (acc : Dict α)
    (hn : (l.map (fun p => p.1)).Nodup)
    (hd : ∀ k ∈ l.map (fun p => p.1), k ∉ dictKeys acc) :
    l.foldl (fun d p => dictInsert d p.1 p.2) acc = acc ++ l := by
  induction l generalizing acc with
  | nil => simp
  | cons p l ih =>
      simp only [List.map_cons, List.nodup_cons] at hn
      simp only [List.foldl_cons]
      rw [dictInsert_of_not_mem _ (hd p.1 (by simp))]
      rw [ih (acc ++ [(p.1, p.2)]) hn.2]
      · simp
      · intro k hk
        simp only [dictKeys, List.map_append, List.mem_append, List.map_cons]
        rintro (hka | hkp)
        · exact hd k (by simp [hk]) hka
        · simp only [List.map_nil, List.mem_singleton] at hkp
          exact hn.1 (hkp ▸ hk)

end FoldlInsertLemmas

/-- C1: decoding a valid normal response (pairwise-distinct item ids) with
`_prepareData(reportType="normal")` yields exactly one entry per distinct
`itemId`, in row order, whose value is the list `[row.value] + row.data`
preserved verbatim. -/
theorem prepareData_normal_distinct_rows (rows : List NormalRow)
    (h : (rows.map (fun r => r.itemId)).Nodup) :
    prepareData rows =
      rows.map (fun r => (r.itemId, Cell.s r.value :: r.data.map Cell.n)) := by
  unfold prepareData
  rw [prepareData_eq_foldl]
  rw [foldl_insert_of_nodup]
  · simp [entryOf]
  · simpa [entryOf, Function.comp] using h
  · intro k _ hk
    simp [dictKeys] at hk

/-- C1 witness: a concrete two-row normal response decodes to the two
verbatim entries. -/
theorem prepareData_normal_distinct_rows_witness :
    prepareData [⟨"a", "x", [1, 2]⟩, ⟨"b", "y", [3]⟩] =
      [("a", [Cell.s "x", Cell.n 1, Cell.n 2]), ("b", [Cell.s "y", Cell.n 3])] :=
  prepareData_normal_distinct_rows _ (by decide)

/-- C10: when several rows share an `itemId`, `_prepareData` keeps exactly
one entry for it, holding the values of the last such row in input order;
no error is raised. -/
theorem prepareData_duplicate_itemId_last_wins (rows : List NormalRow)
    (k : String) (h : k ∈ rows.map (fun r => r.itemId)) :
    dictGet (prepareData rows) k =
      (rows.reverse.find? (fun r => r.itemId = k)).map
        (fun r => Cell.s r.value :: r.data.map Cell.n) ∧
    (dictKeys (prepareData rows)).count k = 1 := by
  constructor
  · unfold prepareData
    rw [prepareData_eq_foldl, dictGet_foldl_insert]
    rw [show (rows.map entryOf).reverse = rows.reverse.map entryOf by
      simp [List.map_reverse]]
    rw [List.find?_map]
    rw [show ((fun p : String × List Cell => decide (p.1 = k)) ∘ entryOf) =
          (fun r : NormalRow => decide (r.itemId = k)) from rfl]
    cases hf : rows.reverse.find? (fun r => r.itemId = k) with
    | some r => simp [hf, entryOf]
    | none =>
        exfalso
        have : ∀ r ∈ rows.reverse, ¬(r.itemId = k) := by
          intro r hr hrk
          have := List.find?_eq_none.mp hf r hr
          simp [hrk] at this
        simp only [List.mem_map] at h
        obtain ⟨r, hr, hrk⟩ := h
        exact this r (by simpa using hr) hrk
  · have hmem : k ∈ dictKeys (prepareData rows) := by
      unfold prepareData
      rw [prepareData_eq_foldl, mem_dictKeys_foldl_insert]
      right
      simpa [entryOf, Function.comp] using h
    have hnd : (dictKeys (prepareData rows)).Nodup := by
      unfold prepareData
      rw [prepareData_eq_foldl]
      exact nodup_dictKeys_foldl_insert _ _ (by simp [dictKeys])
    exact List.count_eq_one_of_mem hnd hmem

/-- C10 witness: rows `a, b, a` produce one entry for `"a"` holding the
last row's values. -/
theorem prepareData_duplicate_itemId_last_wins_witness :
    dictGet (prepareData [⟨"a", "x", [1]⟩, ⟨"b", "z", [5]⟩, ⟨"a", "y", [2]⟩])
        "a" = some [Cell.s "y", Cell.n 2] ∧
      (dictKeys (prepareData
        [⟨"a", "x", [1]⟩, ⟨"b", "z", [5]⟩, ⟨"a", "y", [2]⟩])).count "a" = 1 :=
  prepareData_duplicate_itemId_last_wins _ "a" (by decide)

/-! ## Report-shape classification in `getReport` (cjapy.py lines 1344, 1402)

`getReport` decides the decoding path with `if "rows" in res.keys()`:
the `rows` key present means a normal report, otherwise static. -/

/-- The raw first-page response of `getReport`, with the fields the decoder
reads.  `Option` fields model presence or absence of the JSON key. -/
structure RawResponse : Type where
  rows : Option (List NormalRow)
  columns : Option (List String)
  summaryData : Option (List Int)
  numberOfElements : Option Nat
  lastPage : Option Bool
deriving DecidableEq, Repr

/-- The shape decision of `getReport`:
`reportType = "normal" if "rows" in res.keys() else "static"`. -/
def reportTypeOf (res : RawResponse) : String :=
  if res.rows.isSome then "normal" else "static"

/-- C2: `getReport` classifies a response as normal exactly when the
`rows` key is present, and no other field of the response influences the
decision (two responses agreeing on the presence of `rows` are classified
alike). -/
theorem reportType_rows_sole_discriminant (res : RawResponse) :
    (reportTypeOf res = "normal" ↔ res.rows.isSome = true) ∧
    (∀ res' : RawResponse, res.rows.isSome = res'.rows.isSome →
      reportTypeOf res = reportTypeOf res') := by
  constructor
  · unfold reportTypeOf
    by_cases h : res.rows.isSome <;> simp [h]
  · intro res' h
    unfold reportTypeOf
    rw [h]

/-- A concrete normal-shape response with every auxiliary field populated. -/
def resRowsFull : RawResponse :=
  ⟨some [⟨"i1", "v1", [1]⟩], some ["colA"], some [7], some 3, some false⟩

/-- A concrete normal-shape response with every auxiliary field absent. -/
def resRowsBare : RawResponse :=
  ⟨some [], none, none, none, none⟩

/-- C2 witness: two responses that differ in every field except the
presence of `rows` receive the same classification. -/
theorem reportType_rows_sole_discriminant_witness :
    reportTypeOf resRowsFull = reportTypeOf resRowsBare :=
  (reportType_rows_sole_discriminant resRowsFull).2 resRowsBare rfl

/-! ## The request document

`metricContainer` of the outgoing request: metrics carry a `columnId` and
an ordered list of filter ids; `metricFilters` declares each filter id with
its type-specific payload (`breakdown`, `segment` or `dateRange`). -/

/-- The type-specific payload of a declared metric filter. -/
inductive FilterPayload : Type
  | breakdown (dimension : String) (itemId : String)
  | segment (segmentId : String)
  | dateRange (dateRange : String)
deriving DecidableEq, Repr

/-- One element of `dataRequest["metricContainer"]["metricFilters"]`. -/
structure MetricFilterDef : Type where
  id : String
  payload : FilterPayload
deriving DecidableEq, Repr

/-- One element of `dataRequest["metricContainer"]["metrics"]`. -/
structure MetricDef : Type where
  id : String
  columnId : String
  filters : List String
deriving DecidableEq, Repr

/-- `dataRequest["metricContainer"]`. -/
structure MetricContainer : Type where
  metrics : List MetricDef
  metricFilters : List MetricFilterDef
deriving DecidableEq, Repr

/-- `dataRequest["settings"]`.  `extra` carries any further keys of the
incoming settings dict, which `getReport` leaves untouched. -/
structure ReportSettings : Type where
  page : Nat
  limit : Nat
  nonesBehavior : String
  countRepeatInstances : Bool
  extra : Dict String
deriving DecidableEq, Repr

/-- `dataRequest["statistics"]`. -/
structure ReportStatistics : Type where
  ignoreZeroes : Bool
  extra : Dict String
deriving DecidableEq, Repr

/-- The request document passed to `getReport` (the fields it touches). -/
structure ReportRequest : Type where
  settings : ReportSettings
  statistics : ReportStatistics
  dataId : String
  metricContainer : MetricContainer
deriving DecidableEq, Repr

/-! ## Settings mutation in `getReport` (cjapy.py lines 1314-1337)

When `request` is a dict, line 1318 binds `dataRequest = request` without
any copy, so every assignment below mutates the caller-owned dict in
place; the document below is the caller's dict as it reaches the first
`postData` call. -/

/-- Truthiness of an optional boolean argument: Python's `if x:` for a
parameter defaulting to `None`. -/
def pyTruthy (o : Option Bool) : Bool :=
  o.getD false

/-- The settings block `getReport` writes into the caller's request dict
before issuing the first call (lines 1322-1337): `page = 0`,
`limit = limit`, `nonesBehavior`, `countRepeatInstances`, `dataId`
override, and `statistics.ignoreZeroes`. -/
def applyReportSettings (doc : ReportRequest) (limit : Nat)
    (returnsNone countRepeatInstances ignoreZeroes : Option Bool)
    (dataViewId : Option String) : ReportRequest :=
  let s := doc.settings
  let s := { s with
      page := 0
      limit := limit
      nonesBehavior :=
        if pyTruthy returnsNone then "return-nones" else "exclude-nones"
      countRepeatInstances := pyTruthy countRepeatInstances }
  let doc := { doc with settings := s }
  let doc :=
    match dataViewId with
    | some dv => { doc with dataId := dv }
    | none => doc
  { doc with statistics := { doc.statistics with
      ignoreZeroes := pyTruthy ignoreZeroes } }

/-- C9: `getReport` overwrites `settings.page` (to 0), `settings.limit`,
`settings.nonesBehavior`, `settings.countRepeatInstances` and
`statistics.ignoreZeroes` of the caller's dict with values derived solely
from its own arguments: the overwritten fields are fixed functions of the
arguments, identical for any two incoming documents, so pre-set values
never reach the service. -/
theorem getReport_settings_overwrite (doc doc' : ReportRequest) (limit : Nat)
    (returnsNone countRepeatInstances ignoreZeroes : Option Bool)
    (dataViewId : Option String) :
    (applyReportSettings doc limit returnsNone countRepeatInstances
        ignoreZeroes dataViewId).settings.page = 0 ∧
    (applyReportSettings doc limit returnsNone countRepeatInstances
        ignoreZeroes dataViewId).settings.limit = limit ∧
    (applyReportSettings doc limit returnsNone countRepeatInstances
        ignoreZeroes dataViewId).settings.nonesBehavior =
      (if pyTruthy returnsNone then "return-nones" else "exclude-nones") ∧
    (applyReportSettings doc limit returnsNone countRepeatInstances
        ignoreZeroes dataViewId).settings.countRepeatInstances =
      pyTruthy countRepeatInstances ∧
    (applyReportSettings doc limit returnsNone countRepeatInstances
        ignoreZeroes dataViewId).statistics.ignoreZeroes =
      pyTruthy ignoreZeroes ∧
    ((applyReportSettings doc limit returnsNone countRepeatInstances
        ignoreZeroes dataViewId).settings.page,
     (applyReportSettings doc limit returnsNone countRepeatInstances
        ignoreZeroes dataViewId).settings.limit,
     (applyReportSettings doc limit returnsNone countRepeatInstances
        ignoreZeroes dataViewId).settings.nonesBehavior,
     (applyReportSettings doc limit returnsNone countRepeatInstances
        ignoreZeroes dataViewId).settings.countRepeatInstances,
     (applyReportSettings doc limit returnsNone countRepeatInstances
        ignoreZeroes dataViewId).statistics.ignoreZeroes) =
    ((applyReportSettings doc' limit returnsNone countRepeatInstances
        ignoreZeroes dataViewId).settings.page,
     (applyReportSettings doc' limit returnsNone countRepeatInstances
        ignoreZeroes dataViewId).settings.limit,
     (applyReportSettings doc' limit returnsNone countRepeatInstances
        ignoreZeroes dataViewId).settings.nonesBehavior,
     (applyReportSettings doc' limit returnsNone countRepeatInstances
        ignoreZeroes dataViewId).settings.countRepeatInstances,
     (applyReportSettings doc' limit returnsNone countRepeatInstances
        ignoreZeroes dataViewId).statistics.ignoreZeroes) := by
  cases dataViewId <;>
    exact ⟨rfl, rfl, rfl, rfl, rfl, rfl⟩

/-! ## Pagination loop in `getReport` (cjapy.py lines 1344-1368)

`pages.get i` below models the response of the external `postData` call
when `dataRequest["settings"]["page"] = i` (the loop mutates only that
field between calls).  The loop accumulates `dataRows`, re-reading
`lastPage` after every call and forcing it when the accumulated row count
reaches `n_results`; `n_results = "inf"` (modelled as `none`) disables the
cap, since `float(len(dataRows)) >= float("inf")` never holds. -/

/-- One page of a normal report, as returned by a single `postData` call. -/
structure PageResponse : Type where
  rows : List NormalRow
  lastPage : Bool
  numberOfElements : Nat
deriving DecidableEq, Repr

/-- `float(len(dataRows)) >= float(n_results)`: the `n_results` cap test. -/
def capReached : Option Nat → Nat → Bool
  | none, _ => false
  | some c, len => c ≤ len

/-- The page-accumulation loop of `getReport`: each step consumes the
response for the current page number, extends `dataRows` and the list of
issued page numbers, and stops when `lastPage` holds or the cap is
reached.  `none` models the loop still asking the service for a page the
synthetic scenario does not define. -/
def fetchLoop (cap : Option Nat) :
    List NormalRow → List Nat → Nat → List PageResponse →
      Option (List NormalRow × Nat × List Nat)
  | _, _, _, [] => none
  | acc, req, page, p :: ps =>
      let acc' := acc ++ p.rows
      let req' := req ++ [page]
      if p.lastPage || capReached cap acc'.length then
        some (acc', req'.length, req')
      else
        fetchLoop cap acc' req' (page + 1) ps

/-- The whole normal-report fetch of `getReport`: start at
`settings.page = 0` with no accumulated rows; the result is the
accumulated rows, the number of calls issued, and the succession of page
numbers sent. -/
def fetchNormalPages (cap : Option Nat) (pages : List PageResponse) :
    Option (List NormalRow × Nat × List Nat) :=
  fetchLoop cap [] [] 0 pages

/-- The loop's stop test after consuming page `i`, with `n` rows already
accumulated before the run: `lastPage` of that page, or the cap reached by
the rows of pages `0..i`. -/
def stopAt (cap : Option Nat) (n : Nat) (pages : List PageResponse)
    (i : Nat) : Bool :=
  ((pages.get? i).map (fun p => p.lastPage)).getD false ||
    capReached cap (n + (((pages.take (i + 1)).map (fun p => p.rows)).flatten).length)

theorem stopAt_cons (cap : Option Nat) (n : Nat) (p : PageResponse)
    (ps : List PageResponse) (j : Nat) :
    stopAt cap n (p :: ps) (j + 1) = stopAt cap (n + p.rows.length) ps j := by
  unfold stopAt
  simp only [List.get?_cons_succ, List.take_succ_cons, List.map_cons,
    List.flatten_cons, List.length_append, Nat.add_assoc]

theorem fetchLoop_spec (cap : Option Nat) :
    ∀ (pages : List PageResponse) (acc : List NormalRow) (req : List Nat)
      (page i : Nat),
      i < pages.length →
      stopAt cap acc.length pages i = true →
      (∀ j, j < i → stopAt cap acc.length pages j = false) →
      fetchLoop cap acc req page pages =
        some (acc ++ (((pages.take (i + 1)).map (fun p => p.rows)).flatten),
              req.length + (i + 1), req ++ List.range' page (i + 1)) := by
  intro pages
  induction pages with
  | nil =>
      intro acc req page i hi
      exact absurd hi (Nat.not_lt_zero i)
  | cons p ps ih =>
      intro acc req page i hi hstop hmin
      match i with
      | 0 =>
          unfold fetchLoop
          rw [if_pos]
          · simp [List.range'_one]
          · have := hstop
            unfold stopAt at this
            simpa [List.length_append] using this
      | i + 1 =>
          have h0 : stopAt cap acc.length (p :: ps) 0 = false :=
            hmin 0 (Nat.succ_pos i)
          unfold fetchLoop
          rw [if_neg]
          · rw [ih (acc ++ p.rows) (req ++ [page]) (page + 1) i
                (by simpa using hi)
                (by rw [List.length_append,
                        ← stopAt_cons cap acc.length p ps i]
                    exact hstop)
                (fun j hj => by
                  rw [List.length_append,
                      ← stopAt_cons cap acc.length p ps j]
                  exact hmin (j + 1) (Nat.succ_lt_succ hj))]
            simp [List.range'_succ, Nat.add_assoc, Nat.add_comm 1 (i + 1)]
          · unfold stopAt at h0
            simpa [List.length_append] using h0

/-- C4: the normal-report pagination of `getReport` issues consecutive
page numbers starting at 0 and stops right after the first page where the
service reports `lastPage` or the accumulated row count reaches the
`n_results` cap (`none`, i.e. `"inf"`, disables the cap); the returned
rows are the in-order concatenation of the fetched pages' rows, with one
call per fetched page. -/
theorem getReport_pagination_accumulation (cap : Option Nat)
    (pages : List PageResponse) (i : Nat)
    (hi : i < pages.length)
    (hstop : stopAt cap 0 pages i = true)
    (hmin : ∀ j, j < i → stopAt cap 0 pages j = false) :
    fetchNormalPages cap pages =
      some ((((pages.take (i + 1)).map (fun p => p.rows)).flatten),
            i + 1, List.range (i + 1)) := by
  have h := fetchLoop_spec cap pages [] [] 0 i hi hstop hmin
  simpa [fetchNormalPages, List.range_eq_range'] using h

/-- Three synthetic pages with `lastPage = [False, False, True]`. -/
def pagesFFT : List PageResponse :=
  [⟨[⟨"i1", "v1", [1]⟩], false, 1⟩,
   ⟨[⟨"i2", "v2", [2]⟩], false, 1⟩,
   ⟨[⟨"i3", "v3", [3]⟩], true, 1⟩]

/-- C4 witness: with no cap and three pages whose `lastPage` flags are
`[False, False, True]`, exactly 3 calls are issued (pages 0, 1, 2) and
all three pages' rows come back concatenated in order. -/
theorem getReport_pagination_accumulation_witness :
    fetchNormalPages none pagesFFT =
      some ([⟨"i1", "v1", [1]⟩, ⟨"i2", "v2", [2]⟩, ⟨"i3", "v3", [3]⟩],
            3, [0, 1, 2]) :=
  getReport_pagination_accumulation none pagesFFT 2 (by decide) (by decide)
    (by decide)

/-! ## Column-name resolution for normal reports (cjapy.py lines 1372-1401)

`getReport` builds `columnIdRelations` (columnId → metric id),
`filterRelations` (columnId → chained filter ids, only when non-empty),
`metricFilterTranslation` (declared filter id → display value:
breakdown → `dimension:itemId`, dateRange → the literal token,
segment → the segment id), then assembles
`metricColumns[colId] = metricId + ":::" + translation[f]` for every
chained filter id `f`.  This computation reads only the request document,
not the response. -/

/-- The `filterValue` computed for one declared filter (lines 1385-1393);
the separate `metricFilters` display dict built there feeds only the
`Workspace` result object, not the column names. -/
def filterValueOf (f : MetricFilterDef) : String :=
  match f.payload with
  | .breakdown dimension itemId => dimension ++ ":" ++ itemId
  | .dateRange dr => dr
  | .segment segId => segId

/-- `{obj["columnId"]: obj["id"] for obj in metricContainer["metrics"]}`. -/
def columnIdRelations (mc : MetricContainer) : Dict String :=
  dictOf (mc.metrics.map (fun m => (m.columnId, m.id)))

/-- `{obj["columnId"]: obj["filters"] for obj in metrics if
len(obj.get("filters", [])) > 0}`. -/
def filterRelations (mc : MetricContainer) : Dict (List String) :=
  dictOf ((mc.metrics.filter (fun m => decide (0 < m.filters.length))).map
    (fun m => (m.columnId, m.filters)))

/-- `metricFilterTranslation[filter["id"]] = filterValue`, for every
declared metric filter in order. -/
def metricFilterTranslation (mc : MetricContainer) : Dict String :=
  dictOf (mc.metricFilters.map (fun f => (f.id, filterValueOf f)))

/-- The inner loop `for element in filterRelations.get(colId, []):
metricColumns[colId] += f":::{metricFilterTranslation[element]}"`; an
undeclared filter id is a Python `KeyError`. -/
def resolveColumn (translation : Dict String) (base : String)
    (filters : List String) : Except String String :=
  filters.foldlM (fun acc e =>
    match dictGet translation e with
    | some v => Except.ok (acc ++ ":::" ++ v)
    | none => Except.error "KeyError: metricFilterTranslation") base

/-- One iteration of the `for colId in columnIdRelations.keys()` loop:
`metricColumns[colId] = columnIdRelations[colId]` then the filter
suffixes. -/
def metricColumnStep (mc : MetricContainer) (acc : Dict String)
    (colId : String) : Except String (Dict String) := do
  let base ←
    match dictGet (columnIdRelations mc) colId with
    | some b => Except.ok b
    | none => Except.error "KeyError: columnIdRelations"
  let name ← resolveColumn (metricFilterTranslation mc) base
    (dictGetD (filterRelations mc) colId [])
  Except.ok (dictInsert acc colId name)

/-- The `metricColumns` dict built by `getReport` for a normal report:
iterate the keys of `columnIdRelations`, start from the metric id, append
one `:::`-joined translated filter per chained filter id. -/
def metricColumns (mc : MetricContainer) : Except String (Dict String) :=
  (dictKeys (columnIdRelations mc)).foldlM (metricColumnStep mc) []

/-- The display value the request document declares for filter id `e`
(falling back to the raw id if undeclared) — the specification's wording
of the translation. -/
def declaredFilterValue (mc : MetricContainer) (e : String) : String :=
  ((mc.metricFilters.find? (fun f => f.id = e)).map filterValueOf).getD e

/-- The claim's formula for a metric's resolved column name: the metric id
joined by `:::` with the declared display value of each chained filter id. -/
def canonicalColumnName (mc : MetricContainer) (m : MetricDef) : String :=
  m.filters.foldl (fun acc e => acc ++ ":::" ++ declaredFilterValue mc e) m.id

section ColumnResolutionLemmas

variable {α β : Type}

theorem dictOf_eq_self_of_nodup (l : List (String × α))
    (h : (l.map (fun p => p.1)).Nodup) : dictOf l = l := by
  unfold dictOf
  rw [foldl_insert_of_nodup l [] h (by simp [dictKeys])]
  simp

theorem dictGet_map_eq_find? (l : List β) (key : β → String) (val : β → α)
    (k : String) :
    dictGet (l.map (fun x => (key x, val x))) k =
      (l.find? (fun x => key x = k)).map val := by
  induction l with
  | nil => rfl
  | cons x l ih =>
      by_cases h : key x = k <;> simp [dictGet, List.find?, h, ih]

theorem dictGet_map_self (l : List β) (key : β → String) (val : β → α)
    (hk : (l.map key).Nodup) (m : β) (hm : m ∈ l) :
    dictGet (l.map (fun x => (key x, val x))) (key m) = some (val m) := by
  rw [dictGet_map_eq_find?]
  induction l with
  | nil => exact absurd hm (List.not_mem_nil m)
  | cons x l ih =>
      simp only [List.map_cons, List.nodup_cons] at hk
      by_cases hx : key x = key m
      · have hxm : x = m := by
          rcases List.mem_cons.mp hm with h | h
          · exact h.symm
          · exact absurd (hx ▸ List.mem_map_of_mem key h) hk.1
        simp [List.find?, hx, hxm]
      · have hm' : m ∈ l := by
          rcases List.mem_cons.mp hm with h | h
          · exact absurd (congrArg key h.symm) hx
          · exact h
        simp only [List.find?, decide_eq_false hx]
        exact ih hk.2 hm'

theorem columnIdRelations_eq (mc : MetricContainer)
    (hcol : (mc.metrics.map (fun m => m.columnId)).Nodup) :
    columnIdRelations mc = mc.metrics.map (fun m => (m.columnId, m.id)) := by
  unfold columnIdRelations
  exact dictOf_eq_self_of_nodup _ (by simpa [List.map_map, Function.comp] using hcol)

theorem filterRelations_keys_nodup (mc : MetricContainer)
    (hcol : (mc.metrics.map (fun m => m.columnId)).Nodup) :
    ((mc.metrics.filter (fun m => decide (0 < m.filters.length))).map
      (fun m => m.columnId)).Nodup :=
  hcol.sublist ((mc.metrics.filter_sublist).map _)

theorem filterRelations_eq (mc : MetricContainer)
    (hcol : (mc.metrics.map (fun m => m.columnId)).Nodup) :
    filterRelations mc =
      (mc.metrics.filter (fun m => decide (0 < m.filters.length))).map
        (fun m => (m.columnId, m.filters)) := by
  unfold filterRelations
  exact dictOf_eq_self_of_nodup _
    (by simpa [List.map_map, Function.comp] using filterRelations_keys_nodup mc hcol)

theorem metricFilterTranslation_eq (mc : MetricContainer)
    (hfids : (mc.metricFilters.map (fun f => f.id)).Nodup) :
    metricFilterTranslation mc =
      mc.metricFilters.map (fun f => (f.id, filterValueOf f)) := by
  unfold metricFilterTranslation
  exact dictOf_eq_self_of_nodup _ (by simpa [List.map_map, Function.comp] using hfids)

theorem columnIdRelations_lookup (mc : MetricContainer)
    (hcol : (mc.metrics.map (fun m => m.columnId)).Nodup)
    (m : MetricDef) (hm : m ∈ mc.metrics) :
    dictGet (columnIdRelations mc) m.columnId = some m.id := by
  rw [columnIdRelations_eq mc hcol]
  exact dictGet_map_self mc.metrics (fun m => m.columnId) (fun m => m.id) hcol m hm

theorem filterRelations_lookup (mc : MetricContainer)
    (hcol : (mc.metrics.map (fun m => m.columnId)).Nodup)
    (m : MetricDef) (hm : m ∈ mc.metrics) :
    dictGetD (filterRelations mc) m.columnId [] = m.filters := by
  rw [filterRelations_eq mc hcol]
  by_cases hnil : m.filters = []
  · unfold dictGetD
    rw [dictGet_map_eq_find?]
    rw [List.find?_eq_none.mpr]
    · simp [hnil]
    · intro x hx
      simp only [List.mem_filter, decide_eq_true_eq] at hx
      by_contra hxc
      simp only [decide_eq_true_eq] at hxc
      have hxm : x = m :=
        List.inj_on_of_nodup_map hcol hx.1 hm hxc
      rw [hxm, hnil] at hx
      simp at hx
  · have hmf : m ∈ mc.metrics.filter (fun m => decide (0 < m.filters.length)) := by
      rw [List.mem_filter]
      exact ⟨hm, by simpa using List.length_pos.mpr hnil⟩
    unfold dictGetD
    rw [dictGet_map_self _ (fun m => m.columnId) (fun m => m.filters)
      (filterRelations_keys_nodup mc hcol) m hmf]
    rfl

theorem resolveColumn_ok (mc : MetricContainer)
    (hfids : (mc.metricFilters.map (fun f => f.id)).Nodup)
    (fs : List String)
    (href : ∀ e ∈ fs, e ∈ mc.metricFilters.map (fun f => f.id)) :
    ∀ base : String,
      resolveColumn (metricFilterTranslation mc) base fs =
        Except.ok
          (fs.foldl (fun acc e => acc ++ ":::" ++ declaredFilterValue mc e) base) := by
  induction fs with
  | nil => intro base; rfl
  | cons e fs ih =>
      intro base
      have he : e ∈ mc.metricFilters.map (fun f => f.id) := href e (by simp)
      obtain ⟨f₀, hf₀, hfe⟩ := List.mem_map.mp he
      have hfind : ∃ f', mc.metricFilters.find? (fun f => f.id = e) = some f' := by
        cases hcase : mc.metricFilters.find? (fun f => f.id = e) with
        | some f' => exact ⟨f', rfl⟩
        | none =>
            have := List.find?_eq_none.mp hcase f₀ hf₀
            simp [hfe] at this
      obtain ⟨f', hf'⟩ := hfind
      have hget : dictGet (metricFilterTranslation mc) e = some (filterValueOf f') := by
        rw [metricFilterTranslation_eq mc hfids, dictGet_map_eq_find?, hf']
        rfl
      have hdecl : declaredFilterValue mc e = filterValueOf f' := by
        unfold declaredFilterValue
        rw [hf']
        rfl
      unfold resolveColumn at ih ⊢
      rw [List.foldlM_cons, hget]
      simp only [List.foldl_cons, hdecl]
      exact ih (fun x hx => href x (by simp [hx])) (base ++ ":::" ++ filterValueOf f')

theorem exceptBind_ok {ε γ δ : Type} (a : γ) (f : γ → Except ε δ) :
    (Except.ok a >>= f) = f a := rfl

theorem metricColumnStep_eval (mc : MetricContainer) (acc : Dict String)
    (m : MetricDef)
    (h1 : dictGet (columnIdRelations mc) m.columnId = some m.id)
    (h2 : dictGetD (filterRelations mc) m.columnId [] = m.filters)
    (h3 : resolveColumn (metricFilterTranslation mc) m.id m.filters =
      Except.ok (canonicalColumnName mc m)) :
    metricColumnStep mc acc m.columnId =
      Except.ok (dictInsert acc m.columnId (canonicalColumnName mc m)) := by
  unfold metricColumnStep
  rw [h1, h2]
  show (resolveColumn (metricFilterTranslation mc) m.id m.filters >>=
    fun name => Except.ok (dictInsert acc m.columnId name)) = _
  rw [h3]
  rfl

theorem metricColumns_go (mc : MetricContainer) :
    ∀ (ms : List MetricDef) (acc : Dict String),
      (ms.map (fun m => m.columnId)).Nodup →
      (∀ m ∈ ms, m.columnId ∉ dictKeys acc) →
      (∀ m ∈ ms, dictGet (columnIdRelations mc) m.columnId = some m.id) →
      (∀ m ∈ ms, dictGetD (filterRelations mc) m.columnId [] = m.filters) →
      (∀ m ∈ ms, resolveColumn (metricFilterTranslation mc) m.id m.filters =
        Except.ok (canonicalColumnName mc m)) →
      (ms.map (fun m => m.columnId)).foldlM (metricColumnStep mc) acc =
        Except.ok (acc ++ ms.map (fun m => (m.columnId, canonicalColumnName mc m))) := by
  intro ms
  induction ms with
  | nil => intro acc _ _ _ _ _; simp; rfl
  | cons m ms ih =>
      intro acc hn hacc h1 h2 h3
      simp only [List.map_cons, List.nodup_cons] at hn
      rw [List.map_cons, List.foldlM_cons]
      rw [metricColumnStep_eval mc acc m (h1 m (by simp)) (h2 m (by simp))
        (h3 m (by simp))]
      rw [exceptBind_ok]
      rw [dictInsert_of_not_mem _ (hacc m (by simp))]
      rw [ih (acc ++ [(m.columnId, canonicalColumnName mc m)]) hn.2
        (fun m' hm' => by
          simp only [dictKeys, List.map_append, List.mem_append]
          rintro (hka | hkm)
          · exact hacc m' (by simp [hm']) hka
          · simp only [List.map_cons, List.map_nil, List.mem_singleton] at hkm
            exact hn.1 (hkm ▸ List.mem_map_of_mem (fun m => m.columnId) hm'))
        (fun m' hm' => h1 m' (by simp [hm']))
        (fun m' hm' => h2 m' (by simp [hm']))
        (fun m' hm' => h3 m' (by simp [hm']))]
      simp

end ColumnResolutionLemmas

/-- C7: for a well-formed request document (distinct column ids, distinct
declared filter ids, every chained filter id declared), the column name
`getReport` resolves for each metric is the metric id `:::`-joined with
the declared display value of each filter id chained to that metric's
column — a breakdown filter contributing `dimension:itemId`, a date range
its literal token, a segment its id.  The computation reads only the
request document, so it holds for any response derived from it. -/
theorem getReport_column_resolution (mc : MetricContainer)
    (hcol : (mc.metrics.map (fun m => m.columnId)).Nodup)
    (hfids : (mc.metricFilters.map (fun f => f.id)).Nodup)
    (href : ∀ m ∈ mc.metrics, ∀ e ∈ m.filters,
      e ∈ mc.metricFilters.map (fun f => f.id)) :
    metricColumns mc =
      Except.ok (mc.metrics.map
        (fun m => (m.columnId, canonicalColumnName mc m))) := by
  unfold metricColumns
  rw [show dictKeys (columnIdRelations mc) = mc.metrics.map (fun m => m.columnId) by
    rw [columnIdRelations_eq mc hcol]
    simp [dictKeys, List.map_map, Function.comp]]
  have h := metricColumns_go mc mc.metrics [] hcol
    (fun m _ => by simp [dictKeys])
    (fun m hm => columnIdRelations_lookup mc hcol m hm)
    (fun m hm => filterRelations_lookup mc hcol m hm)
    (fun m hm => resolveColumn_ok mc hfids m.filters (href m hm) m.id)
  simpa using h

/-- The concrete request of the claim: metric `m1` with one breakdown
filter on dimension `variables/page`, item `home`. -/
def mcHome : MetricContainer :=
  ⟨[⟨"m1", "0", ["f1"]⟩], [⟨"f1", .breakdown "variables/page" "home"⟩]⟩

/-- C7 witness: the metric resolves to `m1:::variables/page:home`. -/
theorem getReport_column_resolution_witness :
    metricColumns mcHome = Except.ok [("0", "m1:::variables/page:home")] :=
  getReport_column_resolution mcHome (by decide) (by decide) (by decide)

/-! ## `_decrypteStaticData` (cjapy.py lines 1203-1265)

Embeds the static-report decoder.  Python exceptions (`KeyError`,
`IndexError`, `ZeroDivisionError`) are modelled as `Except.error`; the
`self.getFilter(row)["name"]` metadata lookup is the `getFilterName`
collaborator parameter.  Python's `set` iterates in an unspecified order;
we fix first-occurrence order, which leaves the quantities the theorems
below speak about (cardinalities, per-row grouping, success) unchanged. -/

/-- The static-report response: `response["columns"]["columnIds"]` zipped
against `response["summaryData"]["totals"]`. -/
structure StaticResponse : Type where
  columnIds : List String
  totals : List Int
deriving DecidableEq, Repr

/-- `x in s` on Python strings (substring containment). -/
def pyIn (sub s : String) : Bool :=
  decide (sub.toList <:+: s.toList)

/-- `s.startswith(pre)` on Python strings. -/
def pyStartsWith (s pre : String) : Bool :=
  decide (pre.toList <+: s.toList)

/-- `list(dict.fromkeys(l))`-style deduplication: the distinct elements of
`l` in first-occurrence order, standing in for Python's `set(l)`. -/
def pyUniqueList (l : List String) : List String :=
  l.foldl (fun acc x => if x ∈ acc then acc else acc ++ [x]) []

/-- `{obj["id"]: obj["segmentId"] for obj in metricFilters if
obj["id"].startswith("STATIC_ROW")}`; reading `segmentId` off a filter of
another type is a `KeyError`. -/
def tableSegmentsRowsOf (mc : MetricContainer) : Except String (Dict String) :=
  mc.metricFilters.foldlM (fun d obj =>
    if pyStartsWith obj.id "STATIC_ROW" then
      match obj.payload with
      | .segment s => Except.ok (dictInsert d obj.id s)
      | _ => Except.error "KeyError: segmentId"
    else Except.ok d) []

/-- The `segmentApplied` dict (lines 1217-1225): non-static filters mapped
to their display value, a breakdown contributing
`dimension:::itemId` (three colons at this site). -/
def segmentAppliedOf (mc : MetricContainer) : Dict String :=
  mc.metricFilters.foldl (fun d obj =>
    if pyStartsWith obj.id "STATIC_ROW" then d
    else
      match obj.payload with
      | .breakdown dim item => dictInsert d obj.id (dim ++ ":::" ++ item)
      | .segment s => dictInsert d obj.id s
      | .dateRange dr => dictInsert d obj.id dr) []

/-- `{obj["columnId"]: obj["filters"][0] for obj in metrics}`; a metric
without filters is an `IndexError`. -/
def tableColumnIdsOf (mc : MetricContainer) : Except String (Dict String) :=
  mc.metrics.foldlM (fun d obj =>
    match obj.filters with
    | f :: _ => Except.ok (dictInsert d obj.columnId f)
    | [] => Except.error "IndexError: filters") []

/-- `{obj["filters"][0]: obj["filters"][1:] for obj in metrics if
len(obj["filters"]) > 1}`. -/
def staticFilterRelationsOf (mc : MetricContainer) : Dict (List String) :=
  mc.metrics.foldl (fun d obj =>
    match obj.filters with
    | f :: g :: rest => dictInsert d f (g :: rest)
    | _ => d) []

/-- One matched `(column, data)` pair appended to the grouped
`dataRows`: insert the raw row id once, then the data value. -/
def staticRowCell (dataRows : Dict (List Cell)) (rowName row : String)
    (data : Int) : Dict (List Cell) :=
  let cur := dictGetD dataRows rowName []
  let cur := if Cell.s row ∈ cur then cur else cur ++ [Cell.s row]
  dictInsert dataRows rowName (cur ++ [Cell.n data])

/-- The inner `for column, data in zip(columnIds, totals)` loop for one
static row: both dict subscripts raise `KeyError` when missing. -/
def staticRowScan (tableSegmentsRows tableColumnIds staticRowDict : Dict String)
    (resp : StaticResponse) (dataRows : Dict (List Cell)) (row : String) :
    Except String (Dict (List Cell)) :=
  (resp.columnIds.zip resp.totals).foldlM (fun dr cd =>
    match dictGet tableColumnIds cd.1 with
    | none => Except.error "KeyError: tableColumnIds"
    | some fid =>
      match dictGet tableSegmentsRows fid with
      | none => Except.error "KeyError: tableSegmentsRows"
      | some srow =>
        if srow = row then
          match dictGet staticRowDict row with
          | none => Except.error "KeyError: staticRowDict"
          | some rowName => Except.ok (staticRowCell dr rowName row cd.2)
        else Except.ok dr) dataRows

/-- `staticRows = set(tableSegmentsRows.values())` (fixed to
first-occurrence order). -/
def staticRowsOf (tableSegmentsRows : Dict String) : List String :=
  pyUniqueList (tableSegmentsRows.map (fun p => p.2))

/-- `staticRowDict = {row: rowName for row, rowName in zip(staticRows,
staticRowsNames)}`, where a row id matching the segment-id pattern is
resolved through the metadata lookup. -/
def staticRowDictOf (getFilterName : String → String)
    (staticRows : List String) : Dict String :=
  dictOf (staticRows.zip (staticRows.map (fun row =>
    if pyStartsWith row "s" && pyIn "@AdobeOrg" row then getFilterName row
    else row)))

/-- `CJA._decrypteStaticData(dataRequest, response)`: returns
`(nb_columns, tableColumnIds, segmentApplied, filterRelations, dataRows)`.
`nb_columns = int(len(metrics) / nb_rows)` is Python's truncating
division (a `ZeroDivisionError` when there is no static row). -/
def decrypteStaticData (getFilterName : String → String)
    (mc : MetricContainer) (resp : StaticResponse) :
    Except String
      (Nat × Dict String × Dict String × Dict (List String) × Dict (List Cell)) := do
  let tableSegmentsRows ← tableSegmentsRowsOf mc
  let segmentApplied := segmentAppliedOf mc
  let tableColumnIds ← tableColumnIdsOf mc
  let filterRelations := staticFilterRelationsOf mc
  let staticRows := staticRowsOf tableSegmentsRows
  let nb_rows := staticRows.length
  if nb_rows = 0 then
    Except.error "ZeroDivisionError"
  else
    let nb_columns := mc.metrics.length / nb_rows
    let staticRowDict := staticRowDictOf getFilterName staticRows
    let dataRows ← (dictKeys staticRowDict).foldlM
      (staticRowScan tableSegmentsRows tableColumnIds staticRowDict resp) []
    Except.ok (nb_columns, tableColumnIds, segmentApplied, filterRelations, dataRows)

/-- A static request with 2 distinct static rows but 3 metrics: the
metric count is not an integral multiple of `nb_rows`. -/
def mcStatic : MetricContainer :=
  ⟨[⟨"m1", "c1", ["STATIC_ROW_1"]⟩,
    ⟨"m2", "c2", ["STATIC_ROW_2"]⟩,
    ⟨"m3", "c3", ["STATIC_ROW_1"]⟩],
   [⟨"STATIC_ROW_1", .segment "sega"⟩,
    ⟨"STATIC_ROW_2", .segment "segb"⟩]⟩

/-- The matching static response for `mcStatic`. -/
def respStatic : StaticResponse :=
  ⟨["c1", "c2", "c3"], [10, 20, 30]⟩

/-- C3 counterexample: with 3 metrics and 2 static rows (not an integral
multiple), `_decrypteStaticData` raises nothing — it succeeds and returns
the silently truncated `nb_columns = int(3/2) = 1`. -/
theorem static_non_integral_no_error :
    (decrypteStaticData (fun s => s) mcStatic respStatic).isOk = true ∧
    (decrypteStaticData (fun s => s) mcStatic respStatic).toOption.map
      (fun r => r.1) = some 1 ∧
    3 % 2 ≠ 0 := by
  refine ⟨by decide, by decide, by decide⟩

/-- C3 as amended: whenever the static decoder's dict lookups succeed and
at least one static row is declared, `_decrypteStaticData` succeeds and
returns `nb_columns = len(metrics) / nb_rows` computed with truncating
integer division — it does not raise when the metric count is not an
integral multiple of `nb_rows`. -/
theorem decrypteStaticData_truncating_division
    (getFilterName : String → String) (mc : MetricContainer)
    (resp : StaticResponse) (tsr tci : Dict String) (dr : Dict (List Cell))
    (htsr : tableSegmentsRowsOf mc = Except.ok tsr)
    (htci : tableColumnIdsOf mc = Except.ok tci)
    (hnb : (staticRowsOf tsr).length = 0 → False)
    (hscan : (dictKeys (staticRowDictOf getFilterName (staticRowsOf tsr))).foldlM
      (staticRowScan tsr tci (staticRowDictOf getFilterName (staticRowsOf tsr))
        resp) [] = Except.ok dr) :
    decrypteStaticData getFilterName mc resp =
      Except.ok (mc.metrics.length / (staticRowsOf tsr).length, tci,
        segmentAppliedOf mc, staticFilterRelationsOf mc, dr) := by
  unfold decrypteStaticData
  rw [htsr]
  simp only [exceptBind_ok]
  rw [htci]
  simp only [exceptBind_ok]
  rw [if_neg hnb]
  rw [hscan]
  simp only [exceptBind_ok]

/-- C3 witness for the amended claim: the concrete non-integral instance
(3 metrics, 2 static rows) decodes successfully with `nb_columns = 1`. -/
theorem decrypteStaticData_truncating_division_witness :
    decrypteStaticData (fun s => s) mcStatic respStatic =
      Except.ok (1, [("c1", "STATIC_ROW_1"), ("c2", "STATIC_ROW_2"),
          ("c3", "STATIC_ROW_1")], [], [],
        [("sega", [Cell.s "sega", Cell.n 10, Cell.n 30]),
         ("segb", [Cell.s "segb", Cell.n 20])]) :=
  decrypteStaticData_truncating_division (fun s => s) mcStatic respStatic
    [("STATIC_ROW_1", "sega"), ("STATIC_ROW_2", "segb")]
    [("c1", "STATIC_ROW_1"), ("c2", "STATIC_ROW_2"), ("c3", "STATIC_ROW_1")]
    [("sega", [Cell.s "sega", Cell.n 10, Cell.n 30]),
     ("segb", [Cell.s "segb", Cell.n 20])]
    rfl rfl (by decide) rfl

/-! ## Column order of appended row blocks in `getMultidimensionalReport`
(cjapy.py lines 1600-1618)

After renaming the trailing metric columns, the code runs
`columns_order = deque(dataframe.columns)` and, `for lvl in range(level)`,
`columns_order.appendleft(dimensions[lvl])`; the block is then reindexed
by `columns_order`. -/

/-- `pandas.DataFrame.rename` of the trailing `len(metrics)` columns to
the caller's metric names, position by position (lines 1601-1607). -/
def renameTrailing (cols metrics : List String) : List String :=
  cols.take (cols.length - metrics.length) ++ metrics

/-- The `columns_order` deque built at lines 1608-1613: start from the
block's columns, then `appendleft(dimensions[lvl])` for
`lvl = 0, 1, ..., level-1`. -/
def columnsOrder (dimensions : List String) (level : Nat)
    (cols : List String) : List String :=
  (List.range level).foldl (fun order lvl => dimensions.getD lvl "" :: order)
    cols

/-- C5 counterexample: at level 2 of a three-dimension traversal the block
is reindexed `[d1, d0, itemId, value, m1]` — the prepended dimension
columns are in innermost-first order, not the claimed outermost-first
`[d0, d1, ...]`. -/
theorem columnsOrder_innermost_first_counterexample :
    columnsOrder ["d0", "d1", "d2"] 2
        (renameTrailing ["itemId", "value", "metric_0"] ["m1"]) =
      ["d1", "d0", "itemId", "value", "m1"] ∧
    (["d1", "d0", "itemId", "value", "m1"] : List String) ≠
      ["d0", "d1", "itemId", "value", "m1"] := by
  refine ⟨by decide, by decide⟩

/-- C5 as amended: every appended row block has the fixed column order
consisting of the already-completed dimensions in reverse (innermost
ancestor first, `dimensions[level-1], ..., dimensions[0]`), followed by
the block's own columns — item id, the current dimension's value column,
then the metric columns renamed to the caller's metric list in builder
order. -/
theorem columnsOrder_reverse_dimensions (dimensions : List String)
    (level : Nat) (cols : List String) (h : level ≤ dimensions.length) :
    columnsOrder dimensions level cols =
      (dimensions.take level).reverse ++ cols := by
  induction level with
  | zero => simp [columnsOrder]
  | succ n ih =>
      unfold columnsOrder
      rw [List.range_succ, List.foldl_append]
      rw [show (List.range n).foldl
            (fun order lvl => dimensions.getD lvl "" :: order) cols =
          columnsOrder dimensions n cols from rfl]
      rw [ih (Nat.le_of_succ_le h)]
      simp only [List.foldl_cons, List.foldl_nil]
      have hlt : n < dimensions.length := h
      rw [List.getD_eq_getElem _ _ hlt]
      have htake : List.take (n + 1) dimensions =
          List.take n dimensions ++ [dimensions[n]] := by
        rw [List.take_succ, List.getElem?_eq_getElem hlt]
        rfl
      rw [htake, List.reverse_append]
      rfl

/-- C5 amended-claim witness: the concrete level-2 block order. -/
theorem columnsOrder_reverse_dimensions_witness :
    columnsOrder ["d0", "d1", "d2"] 2 ["itemId", "value", "m1"] =
      (["d0", "d1", "d2"].take 2).reverse ++ ["itemId", "value", "m1"] :=
  columnsOrder_reverse_dimensions ["d0", "d1", "d2"] 2
    ["itemId", "value", "m1"] (by decide)

/-! ## The request builder

`RequestCreator` (module `requestCreator`) is not among the sources at
hand; the builder state and operations below are modelled from the
specification §4.1. -/

/-- Modelled from the spec: the `RequestCreator` builder state —
`requestCreator.py` is not under the sources at hand.  §4.1/§3: a mutable
builder accumulating data-view id, dimension, pagination/behavior
settings, ordered global filters, ordered metrics, and a mapping from
metric id to its ordered list of filter ids. -/
structure Builder : Type where
  dataViewId : String := ""
  dimension : String := ""
  limit : Nat := 0
  countRepeatInstances : Bool := true
  nonesBehavior : Bool := true
  globalFilters : List String := []
  metrics : List String := []
  metricFilters : Dict (List String) := []
deriving DecidableEq, Repr

/-- Modelled from the spec: `RequestCreator.setDataViewId`. -/
def setDataViewId (b : Builder) (dv : String) : Builder :=
  { b with dataViewId := dv }

/-- Modelled from the spec: `RequestCreator.setDimension`. -/
def setDimension (b : Builder) (d : String) : Builder :=
  { b with dimension := d }

/-- Modelled from the spec: `RequestCreator.setLimit`. -/
def setLimit (b : Builder) (l : Nat) : Builder :=
  { b with limit := l }

/-- Modelled from the spec: `RequestCreator.setRepeatInstance`. -/
def setRepeatInstance (b : Builder) (v : Bool) : Builder :=
  { b with countRepeatInstances := v }

/-- Modelled from the spec: `RequestCreator.setNoneBehavior`. -/
def setNoneBehavior (b : Builder) (v : Bool) : Builder :=
  { b with nonesBehavior := v }

/-- Modelled from the spec: `RequestCreator.addGlobalFilter` (ordered
append). -/
def addGlobalFilter (b : Builder) (filterId : String) : Builder :=
  { b with globalFilters := b.globalFilters ++ [filterId] }

/-- Modelled from the spec: `RequestCreator.addMetric` (ordered append). -/
def addMetric (b : Builder) (metricId : String) : Builder :=
  { b with metrics := b.metrics ++ [metricId] }

/-- Modelled from the spec: `RequestCreator.addMetricFilter` appends the
filter id to the metric's ordered filter list. -/
def addMetricFilter (b : Builder) (metricId filterId : String) : Builder :=
  let fs := dictGetD b.metricFilters metricId []
  { b with metricFilters := dictInsert b.metricFilters metricId (fs ++ [filterId]) }

/-- Modelled from the spec: `RequestCreator.removeMetricFilter` removes
the filter id from every metric's filter list it appears in; a no-op when
absent. -/
def removeMetricFilter (b : Builder) (filterId : String) : Builder :=
  { b with metricFilters :=
      b.metricFilters.map (fun p => (p.1, p.2.filter (fun f => f ≠ filterId))) }

/-! ## Eager validation in `getMultidimensionalReport`
(cjapy.py lines 1490-1514)

The four explicit `raise ValueError(...)` checks come first; the builder
is then populated.  `globalFilters` has no explicit check: with the
default `None`, the `for filter in globalFilters` loop raises a `TypeError`
when it iterates `None`.  Either failure occurs before any network call. -/

/-- A Python exception raised by the prologue: the explicit `ValueError`
(the spec's `ValidationError`) or the implicit `TypeError`. -/
inductive PyErr : Type
  | valueError (msg : String)
  | typeError (msg : String)
deriving DecidableEq, Repr

/-- Whether the exception is the explicit validation error. -/
def PyErr.isValueError : PyErr → Bool
  | .valueError _ => true
  | .typeError _ => false

/-- The builder populated by lines 1502-1514 once all arguments are
iterable: data-view id, behavior flags, global filters, metrics, and any
caller-supplied static metric filters. -/
def buildTemplate (dataViewId : String) (cri rn : Bool)
    (globalFilters metrics : List String)
    (metricFilters0 : Option (Dict String)) : Builder :=
  let b := setNoneBehavior (setRepeatInstance (setDataViewId {} dataViewId) cri) rn
  let b := globalFilters.foldl addGlobalFilter b
  let b := metrics.foldl addMetric b
  match metricFilters0 with
  | none => b
  | some mf => mf.foldl (fun b p => addMetricFilter b p.1 p.2) b

/-- The argument checks and builder population of
`getMultidimensionalReport` before any fetch (lines 1490-1514): `none`
models an omitted (`None`) argument. -/
def mdrPrologue (dimensions : Option (List String))
    (dimensionLimit : Option (Dict Nat)) (metrics : Option (List String))
    (dataViewId : Option String) (globalFilters : Option (List String))
    (metricFilters0 : Option (Dict String)) (cri rn : Bool) :
    Except PyErr Builder :=
  match dimensions with
  | none => Except.error (.valueError "Require a list of dimensions")
  | some _ =>
    match dimensionLimit with
    | none => Except.error (.valueError
        "Require a dictionary of dimensions with their number of results")
    | some _ =>
      match metrics with
      | none => Except.error (.valueError "Require a list of metrics")
      | some ms =>
        match dataViewId with
        | none => Except.error (.valueError "Require a Data View ID")
        | some dv =>
          match globalFilters with
          | none => Except.error (.typeError
              "argument of type NoneType is not iterable")
          | some gfs => Except.ok (buildTemplate dv cri rn gfs ms metricFilters0)

/-- C8 counterexample: with every argument supplied except the global
filter list, the prologue fails with a `TypeError` from iterating `None`,
not with the claimed explicit `ValidationError` (`ValueError`). -/
theorem mdr_missing_globalFilters_typeError :
    mdrPrologue (some ["d0", "d1"]) (some [("d0", 5), ("d1", 5)])
        (some ["m1"]) (some "dv_id") none none true true =
      Except.error (.typeError "argument of type NoneType is not iterable") ∧
    PyErr.isValueError
      (.typeError "argument of type NoneType is not iterable") = false :=
  ⟨rfl, rfl⟩

/-- C8 as amended: a missing dimensions list, dimension-limit mapping,
metrics list or data-view id raises the explicit `ValueError` eagerly,
before the builder is touched and before any network call; a missing
global filter list is not explicitly validated and instead raises a
`TypeError` when the builder population iterates it — also before any
network call; with all five supplied the prologue succeeds. -/
theorem mdr_validation_eager (dims : List String) (dl : Dict Nat)
    (ms : List String) (dv : String) (gf : List String)
    (odl : Option (Dict Nat)) (oms : Option (List String))
    (odv : Option String) (ogf : Option (List String))
    (mf : Option (Dict String)) (cri rn : Bool) :
    mdrPrologue none odl oms odv ogf mf cri rn =
      Except.error (.valueError "Require a list of dimensions") ∧
    mdrPrologue (some dims) none oms odv ogf mf cri rn =
      Except.error (.valueError
        "Require a dictionary of dimensions with their number of results") ∧
    mdrPrologue (some dims) (some dl) none odv ogf mf cri rn =
      Except.error (.valueError "Require a list of metrics") ∧
    mdrPrologue (some dims) (some dl) (some ms) none ogf mf cri rn =
      Except.error (.valueError "Require a Data View ID") ∧
    mdrPrologue (some dims) (some dl) (some ms) (some dv) none mf cri rn =
      Except.error (.typeError "argument of type NoneType is not iterable") ∧
    mdrPrologue (some dims) (some dl) (some ms) (some dv) (some gf) mf cri rn =
      Except.ok (buildTemplate dv cri rn gf ms mf) := by
  cases oms <;> cases odv <;> cases ogf <;>
    exact ⟨rfl, rfl, rfl, rfl, rfl, rfl⟩

/-! ## Breakdown traversal bookkeeping of `getMultidimensionalReport`
(cjapy.py lines 1519-1619)

The traversal keeps `dict_breakdown_itemId` (`pool`: dimension → item
ids), `dict_breakdown_relation` (`relation`: item id → the parent filter
id that produced it, rebuilt wholesale per item), and the template builder
mutated in place.  `fetch` stands for the `getReport` round trip and
returns the decoded item ids of `res.dataframe["itemId"]`; the data-frame
assembly (renaming/ordering, modelled by `columnsOrder`) and the
`translate_itemId_value` display map do not feed the bookkeeping and are
elided here.  Every request issued is logged with the dimension it
queries and the full builder document passed to `getReport`. -/

/-- One issued request: the current breakdown dimension and the builder
document snapshot (`template.to_dict()`) sent to `getReport`. -/
structure LoggedRequest : Type where
  dimension : String
  doc : Builder
deriving DecidableEq, Repr

/-- The traversal state across levels. -/
structure TravState : Type where
  template : Builder
  pool : Dict (List String)
  relation : Dict String
  log : List LoggedRequest
deriving DecidableEq, Repr

/-- `for metric in metrics: template.addMetricFilter(metric, filterId)`. -/
def attachAll (b : Builder) (metrics : List String) (fid : String) : Builder :=
  metrics.foldl (fun b m => addMetricFilter b m fid) b

/-- One item of the breakdown loop (lines 1557-1598): attach the
grandparent filter when `level > 1` (a `KeyError` when the relation lacks
the item), attach the parent filter `dimensions[level-1]:::itemId`, issue
the request, detach both, and record the children under the CURRENT
dimension key together with the rebuilt relation dict. -/
def mdrItemStep (fetch : Builder → List String) (metrics dims : List String)
    (level : Nat) (st : TravState) (itemId : String) :
    Except String TravState := do
  let origOpt ←
    if level > 1 then
      match dictGet st.relation itemId with
      | none => Except.error "KeyError: dict_breakdown_relation"
      | some o => Except.ok (some o)
    else Except.ok (none : Option String)
  let t1 :=
    match origOpt with
    | some o => attachAll st.template metrics o
    | none => st.template
  let fid := dims.getD (level - 1) "" ++ ":::" ++ itemId
  let t2 := attachAll t1 metrics fid
  let items := fetch t2
  let t3 := removeMetricFilter t2 fid
  let t4 :=
    match origOpt with
    | some o => removeMetricFilter t3 o
    | none => t3
  Except.ok
    { template := t4
      pool := dictInsert st.pool (dims.getD level "") items
      relation := dictOf (items.map (fun c => (c, fid)))
      log := st.log ++ [⟨dims.getD level "", t2⟩] }

/-- One dimension level (lines 1526-1619): set the dimension and capped
limit on the template; the first dimension fetches once and records its
items under `list_breakdown[level]` (the NEXT dimension's name); deeper
levels iterate the items recorded under the CURRENT dimension's name. -/
def mdrLevelStep (fetch : Builder → List String) (metrics dims : List String)
    (limits : Dict Nat) (st : TravState) (level : Nat) :
    Except String TravState := do
  let dimension := dims.getD level ""
  let st := { st with template := setDimension st.template dimension }
  match dictGet limits dimension with
  | none => Except.error "KeyError: dimensionLimit"
  | some lim =>
    let st := { st with
      template := setLimit st.template (if 20000 < lim then 20000 else lim) }
    if dimension = dims.getD 0 "" then
      match (dims.drop 1).get? level with
      | none => Except.error "IndexError: list_breakdown"
      | some key =>
        let items := fetch st.template
        Except.ok { st with
          pool := dictInsert st.pool key items
          log := st.log ++ [⟨dimension, st.template⟩] }
    else
      (dictGetD st.pool dimension []).foldlM
        (mdrItemStep fetch metrics dims level) st

/-- The whole traversal: build the template (via the spec-modelled
builder), then run one level per dimension with an incrementing level
counter. -/
def mdrRun (fetch : Builder → List String) (dims : List String)
    (limits : Dict Nat) (metrics : List String) (dataViewId : String)
    (globalFilters : List String) (metricFilters0 : Option (Dict String))
    (cri rn : Bool) : Except String TravState :=
  (List.range dims.length).foldlM (mdrLevelStep fetch metrics dims limits)
    { template := buildTemplate dataViewId cri rn globalFilters metrics metricFilters0
      pool := []
      relation := []
      log := [] }

/-- A service that returns one item, `i0`, for every request. -/
def fetchOneItem : Builder → List String :=
  fun _ => ["i0"]

/-- C6: with three distinct dimensions and a service that always returns
a child item, the traversal issues exactly two requests — for `d0` and
`d1` — and none for `d2`, although the level-1 fetch did decode a child
(`i0`, recorded under key `d1`): the level-2 loop reads the never-written
key `d2`, so no level-2 per-item request (which the claim says carries the
parent and grandparent filters) is ever issued. -/
theorem mdr_three_dimensions_no_level2_requests :
    (mdrRun fetchOneItem ["d0", "d1", "d2"]
        [("d0", 5), ("d1", 5), ("d2", 5)] ["m1"] "dv" ["gf"] none
        true true).toOption.map
      (fun st =>
        (st.log.map (fun r => r.dimension),
         dictGetD st.pool "d1" [],
         (st.log.filter (fun r => r.dimension = "d2")).length)) =
      some (["d0", "d1"], ["i0"], 0) := by
  decide

end Cjapy
